import Mathlib

/-!
Verification of the reverse-mode automatic-differentiation engine and the
convolutional-network shape chain documented for this repository.

The autodiff engine (ValueNode / OperationRecord / backward executor) is
described in the specification but its implementation is not among the
source files, which only exercise it through the notebook; the definitions
below are therefore modelled from the specification's data model and
algorithm description.  Numeric payloads use exact rationals, so every
"within floating-point tolerance" statement is established exactly.
-/

namespace Autodiff

/-- Modelled from the spec: a numeric payload, "scalar or n-dimensional
array of floats".  The shape list is empty for scalars; the data list holds
the elements. -/
structure Payload where
  shape : List Nat
  data : List ℚ
deriving Repr, DecidableEq

/-- A payload is scalar-shaped when its shape list is empty. -/
def Payload.isScalar (p : Payload) : Bool :=
  p.shape = ([] : List Nat)

/-- Zero payload of the same shape as the argument (a gradient
accumulator starts out absent/zero). -/
def Payload.zerosLike (p : Payload) : Payload :=
  ⟨p.shape, p.data.map (fun _ => 0)⟩

/-- Ones payload of the same shape as the argument (upstream gradient of
ones matching a root's shape). -/
def Payload.onesLike (p : Payload) : Payload :=
  ⟨p.shape, p.data.map (fun _ => 1)⟩

/-- Elementwise addition of payloads of equal shape. -/
def Payload.add (p q : Payload) : Payload :=
  ⟨p.shape, List.zipWith (fun x y => x + y) p.data q.data⟩

/-- Elementwise multiplication of payloads of equal shape. -/
def Payload.mul (p q : Payload) : Payload :=
  ⟨p.shape, List.zipWith (fun x y => x * y) p.data q.data⟩

/-- Elementwise integer power of a payload. -/
def Payload.pow (p : Payload) (n : Nat) : Payload :=
  ⟨p.shape, p.data.map (fun x => x ^ n)⟩

/-- Elementwise scaling of a payload by a rational constant. -/
def Payload.scale (c : ℚ) (p : Payload) : Payload :=
  ⟨p.shape, p.data.map (fun x => c * x)⟩

/-- Constant payload with the same shape as the argument. -/
def Payload.constLike (p : Payload) (c : ℚ) : Payload :=
  ⟨p.shape, p.data.map (fun _ => c)⟩

/-- The scalar payload holding the number one: the default upstream
gradient for a scalar-shaped root. -/
def scalarOne : Payload := ⟨[], [1]⟩

/-- Modelled from the spec: an operation record captures an elementary
operation (from the closed set add / multiply / integer power) together
with the ordered references (arena indices) of its input nodes. -/
inductive OperationRecord where
  | add (i j : Nat)
  | mul (i j : Nat)
  | pow (n : Nat) (i : Nat)
deriving Repr, DecidableEq

/-- Ordered list of input-node references of a record. -/
def OperationRecord.inputs : OperationRecord → List Nat
  | .add i j => [i, j]
  | .mul i j => [i, j]
  | .pow _ i => [i]

/-- Modelled from the spec: a value node wraps a numeric payload, the
requires-grad flag, the accumulated gradient (initialised to zero), and
the optional producing operation record (absent for leaves). -/
structure ValueNode where
  payload : Payload
  requiresGrad : Bool
  grad : Payload
  producer : Option OperationRecord
deriving Repr, DecidableEq

/-- Modelled from the spec: the implicit graph is arena-style, a list of
value nodes in creation order; records reference earlier indices only. -/
abbrev Graph := List ValueNode

/-- A default node used only to make arena lookups total. -/
def defaultNode : ValueNode := ⟨⟨[], []⟩, false, ⟨[], []⟩, none⟩

/-- Arena lookup of a node. -/
def nodeAt (g : Graph) (i : Nat) : ValueNode :=
  g.getD i defaultNode

/-- Forward value stored at an arena index. -/
def payloadAt (g : Graph) (i : Nat) : Payload :=
  (nodeAt g i).payload

/-- Modelled from the spec: error taxonomy of the engine. -/
inductive AutodiffError where
  | ShapeMismatch
  | UngradableNode
  | UnsupportedOperation
deriving Repr, DecidableEq

/-- Modelled from the spec: construct a leaf value node from a payload,
optionally flagged requires-grad; returns the extended graph and the new
node's index.  The gradient accumulator starts at zero and a leaf has no
producing record. -/
def mkLeaf (g : Graph) (p : Payload) (rg : Bool) : Graph × Nat :=
  (g ++ [⟨p, rg, p.zerosLike, none⟩], g.length)

/-- Modelled from the spec: elementwise addition of two nodes.  Purely
functional: the operand graph is only extended, never mutated.  The result
requires grad when either operand does. -/
def applyAdd (g : Graph) (i j : Nat) : Except AutodiffError (Graph × Nat) :=
  let ni := nodeAt g i
  let nj := nodeAt g j
  if ni.payload.shape = nj.payload.shape then
    let p := ni.payload.add nj.payload
    .ok (g ++ [⟨p, ni.requiresGrad || nj.requiresGrad, p.zerosLike,
      some (.add i j)⟩], g.length)
  else
    .error .ShapeMismatch

/-- Modelled from the spec: elementwise multiplication of two nodes. -/
def applyMul (g : Graph) (i j : Nat) : Except AutodiffError (Graph × Nat) :=
  let ni := nodeAt g i
  let nj := nodeAt g j
  if ni.payload.shape = nj.payload.shape then
    let p := ni.payload.mul nj.payload
    .ok (g ++ [⟨p, ni.requiresGrad || nj.requiresGrad, p.zerosLike,
      some (.mul i j)⟩], g.length)
  else
    .error .ShapeMismatch

/-- Modelled from the spec: elementwise integer power of a node. -/
def applyPow (g : Graph) (n : Nat) (i : Nat) :
    Except AutodiffError (Graph × Nat) :=
  let ni := nodeAt g i
  let p := ni.payload.pow n
  .ok (g ++ [⟨p, ni.requiresGrad, p.zerosLike, some (.pow n i)⟩], g.length)

/-- Modelled from the spec: the elementary-operation derivative table.
Given the graph, a producing record and the upstream gradient arriving at
the record's output, produce the per-input local gradient contributions:
addition contributes the upstream unchanged (local derivative 1 per
operand), multiplication contributes upstream times the other operand's
forward value, and integer power contributes upstream times
n * x ^ (n - 1). -/
def OperationRecord.localContribs (g : Graph) :
    OperationRecord → Payload → List (Nat × Payload)
  | .add i j, up => [(i, up), (j, up)]
  | .mul i j, up =>
      [(i, up.mul (payloadAt g j)), (j, up.mul (payloadAt g i))]
  | .pow n i, up =>
      [(i, up.mul (Payload.scale (n : ℚ) ((payloadAt g i).pow (n - 1))))]

/-- Working upstream gradient of node i during a backward pass. -/
def gradAt (grads : List Payload) (i : Nat) : Payload :=
  grads.getD i ⟨[], []⟩

/-- Initial working gradients: the upstream gradient at the root and zero
(of each node's own shape) everywhere else. -/
def initGradsFrom : Graph → Nat → Nat → Payload → List Payload
  | [], _, _, _ => []
  | n :: g, i, root, up =>
      (if i = root then up else n.payload.zerosLike) ::
        initGradsFrom g (i + 1) root up

/-- Initial working gradients for a whole graph. -/
def initGrads (g : Graph) (root : Nat) (up : Payload) : List Payload :=
  initGradsFrom g 0 root up

/-- One backward step at node i: if the node has a producing record, add
(accumulate, never replace) each local contribution into the working
gradient of the corresponding input; a leaf terminates propagation. -/
def backwardStep (g : Graph) (grads : List Payload) (i : Nat) :
    List Payload :=
  match (nodeAt g i).producer with
  | none => grads
  | some rec =>
      (rec.localContribs g (gradAt grads i)).foldl
        (fun gs jc => gs.set jc.1 ((gradAt gs jc.1).add jc.2)) grads

/-- Reverse topological traversal: process indices n-1, n-2, ..., 0 (the
spec guarantees creation order is a topological order, so its reverse is a
reverse topological order). -/
def backwardFrom (g : Graph) : Nat → List Payload → List Payload
  | 0, grads => grads
  | i + 1, grads => backwardFrom g i (backwardStep g grads i)

/-- The full working-gradient computation of one backward pass.  It reads
only payloads and producing records, never the stored gradient
accumulators. -/
def runBackward (g : Graph) (root : Nat) (up : Payload) : List Payload :=
  backwardFrom g g.length (initGrads g root up)

/-- Accumulate the working gradients into the stored accumulators of the
nodes flagged requires-grad; every other node is left untouched. -/
def applyGrads : Graph → List Payload → Graph
  | [], _ => []
  | n :: g, [] => n :: applyGrads g []
  | n :: g, d :: grads =>
      (if n.requiresGrad then { n with grad := n.grad.add d } else n) ::
        applyGrads g grads

/-- Modelled from the spec: the backward executor.  The upstream gradient
defaults to the scalar one when absent; it must match the root's shape
(ShapeMismatch otherwise, never silent broadcast or truncation), and
backward on a root through which no node requires gradients is an explicit
UngradableNode error.  On success the gradients of one reverse
topological sweep are accumulated into every requires-grad node. -/
def backward (g : Graph) (root : Nat) (up? : Option Payload) :
    Except AutodiffError Graph :=
  let rootN := nodeAt g root
  let up := up?.getD scalarOne
  if up.shape ≠ rootN.payload.shape then
    .error .ShapeMismatch
  else if ¬ rootN.requiresGrad then
    .error .UngradableNode
  else
    .ok (applyGrads g (runBackward g root up))

/-- A node respects creation order at index i when its producing record
(if any) references strictly earlier indices only. -/
def nodeRefsBelow (n : ValueNode) (i : Nat) : Bool :=
  match n.producer with
  | none => true
  | some r => r.inputs.all (fun j => j < i)

/-- A graph is well formed when every node references strictly earlier
nodes: the graph is a DAG and creation order is a topological order. -/
def WellFormed (g : Graph) : Prop :=
  ∀ i, i < g.length → nodeRefsBelow (nodeAt g i) i = true

instance (g : Graph) : Decidable (WellFormed g) :=
  Nat.decidableBallLT g.length fun i _ => nodeRefsBelow (nodeAt g i) i = true

/-- The notebook's expression Q = 3 * a ** 3 - b ** 2, built elementwise
over the engine: the constants 3 and -1 enter as non-requires-grad leaves
of the operands' shape and the subtraction is 3 * a ** 3 + (-1) * b ** 2.
Returns the final graph and the index of Q.  Node indices: 0 = a, 1 = b,
2 = const 3, 3 = const -1, 4 = a ** 3, 5 = 3 * a ** 3, 6 = b ** 2,
7 = (-1) * b ** 2, 8 = Q. -/
def buildQ (a b : Payload) : Except AutodiffError (Graph × Nat) := do
  let (g1, ia) := mkLeaf [] a true
  let (g2, ib) := mkLeaf g1 b true
  let (g3, ic3) := mkLeaf g2 (a.constLike 3) false
  let (g4, icm1) := mkLeaf g3 (a.constLike (-1)) false
  let (g5, ia3) ← applyPow g4 3 ia
  let (g6, it) ← applyMul g5 ic3 ia3
  let (g7, ib2) ← applyPow g6 2 ib
  let (g8, inb2) ← applyMul g7 icm1 ib2
  let (g9, iq) ← applyAdd g8 it inb2
  pure (g9, iq)

/-- The gradients of a and b after building Q and running one backward
pass on it with an upstream gradient of ones matching Q's shape. -/
def qGradsOnce (a b : Payload) : Except AutodiffError (Payload × Payload) := do
  let (g, iq) ← buildQ a b
  let g' ← backward g iq (some (payloadAt g iq).onesLike)
  pure ((nodeAt g' 0).grad, (nodeAt g' 1).grad)

/-- The gradients of a and b after building Q and running two backward
passes on it, ones upstream each time, without clearing gradients in
between. -/
def qGradsTwice (a b : Payload) :
    Except AutodiffError (Payload × Payload) := do
  let (g, iq) ← buildQ a b
  let g1 ← backward g iq (some (payloadAt g iq).onesLike)
  let g2 ← backward g1 iq (some (payloadAt g1 iq).onesLike)
  pure ((nodeAt g2 0).grad, (nodeAt g2 1).grad)

/-- The gradient of a after building c = a + a (the one node used as both
operands) on a scalar leaf holding x and running backward on c with
upstream gradient 1. -/
def sharedAddGrad (x : ℚ) : Except AutodiffError Payload := do
  let (g1, ia) := mkLeaf [] ⟨[], [x]⟩ true
  let (g2, ic) ← applyAdd g1 ia ia
  let g' ← backward g2 ic (some scalarOne)
  pure (nodeAt g' ia).grad

/-- A two-node graph of scalar leaves holding x and c, for checking the
derivative table at arbitrary operand values. -/
def twoScalarLeaves (x c : ℚ) : Graph :=
  (mkLeaf (mkLeaf [] ⟨[], [x]⟩ true).1 ⟨[], [c]⟩ true).1

/-- The graph obtained from the two scalar leaves 1 and 2 by one
application of add: the new node 1 + 2 = 3 is appended, the operands are
untouched. -/
def sumGraph : Graph :=
  twoScalarLeaves 1 2 ++ [⟨⟨[], [3]⟩, true, ⟨[], [0]⟩, some (.add 0 1)⟩]

/-- A three-node graph c = a + b in which the leaf b participates but is
not flagged requires-grad: a = 5 (requires grad), b = 7 (no grad),
c = 12 produced by add. -/
def frameGraph : Graph :=
  [⟨⟨[], [5]⟩, true, ⟨[], [0]⟩, none⟩,
   ⟨⟨[], [7]⟩, false, ⟨[], [0]⟩, none⟩,
   ⟨⟨[], [12]⟩, true, ⟨[], [0]⟩, some (.add 0 1)⟩]

/-- The frame graph after one backward pass on c with upstream 1: a and c
accumulate gradient 1, b is untouched. -/
def frameGraphAfter : Graph :=
  [⟨⟨[], [5]⟩, true, ⟨[], [1]⟩, none⟩,
   ⟨⟨[], [7]⟩, false, ⟨[], [0]⟩, none⟩,
   ⟨⟨[], [12]⟩, true, ⟨[], [1]⟩, some (.add 0 1)⟩]

end Autodiff

namespace ConvNet

/-!
Shape-level embedding of the ConvNet class defined in the notebook
(src/Basics/1_Blitz Basics.ipynb): conv1 = Conv2d(1, 6, 5),
conv2 = Conv2d(6, 16, 5), fc1 = Linear(16*5*5, 120),
fc2 = Linear(120, 84), fc3 = Linear(84, 10), with forward
input -> relu conv1 -> max_pool2d 2x2 -> relu conv2 -> max_pool2d 2
-> flatten from dim 1 -> relu fc1 -> relu fc2 -> fc3.
-/

/-- Shape of a 4-dimensional tensor: batch, channels, height, width. -/
structure TShape4 where
  n : Nat
  c : Nat
  h : Nat
  w : Nat
deriving Repr, DecidableEq

/-- Output shape of Conv2d with square kernel k, stride 1, no padding:
requires matching input channels and a kernel no larger than the image;
spatial dims shrink by k - 1.  ReLU is shape-preserving so it needs no
function of its own. -/
def conv2dShape (inC outC k : Nat) (s : TShape4) : Option TShape4 :=
  if s.c = inC ∧ 0 < k ∧ k ≤ s.h ∧ k ≤ s.w then
    some ⟨s.n, outC, s.h - k + 1, s.w - k + 1⟩
  else
    none

/-- Output shape of max_pool2d with square window k (the notebook passes
(2, 2) once and the equivalent scalar 2 once): spatial dims divide by k
(floor). -/
def maxPool2dShape (k : Nat) (s : TShape4) : Option TShape4 :=
  if 0 < k ∧ k ≤ s.h ∧ k ≤ s.w then
    some ⟨s.n, s.c, s.h / k, s.w / k⟩
  else
    none

/-- Shape after torch.flatten(_, 1): batch dimension kept, everything
else collapsed. -/
def flattenShape (s : TShape4) : Nat × Nat :=
  (s.n, s.c * s.h * s.w)

/-- Output shape of a Linear layer: the feature dimension must equal the
layer's declared input features. -/
def linearShape (inF outF : Nat) (s : Nat × Nat) : Option (Nat × Nat) :=
  if s.2 = inF then some (s.1, outF) else none

/-- The shape chain of ConvNet.forward exactly as composed in the
notebook. -/
def forwardShape (s : TShape4) : Option (Nat × Nat) := do
  let c1 ← conv2dShape 1 6 5 s
  let s2 ← maxPool2dShape 2 c1
  let c3 ← conv2dShape 6 16 5 s2
  let s4 ← maxPool2dShape 2 c3
  let s4flat := flattenShape s4
  let f5 ← linearShape (16 * 5 * 5) 120 s4flat
  let f6 ← linearShape 120 84 f5
  linearShape 84 10 f6

end ConvNet

namespace Autodiff

/-- List-level core of the gradient of a in Q = 3 a ^ 3 - b ^ 2: the
chain-rule accumulation collapses to 9 x ^ 2 elementwise. -/
lemma gradA_core (da : List ℚ) :
    List.zipWith (fun x y => x + y) (List.replicate da.length 0)
        (List.zipWith (fun x y => x + y) (List.replicate da.length 0)
          (List.zipWith (fun x y => x * y)
            (List.zipWith (fun x y => x + y)
              (List.map ((fun _ => (0 : ℚ)) ∘ fun x => x ^ 3) da)
              (List.replicate da.length 3))
            (List.map ((fun x => 3 * x) ∘ fun x => x ^ 2) da))) =
      List.map (fun x => 9 * x ^ 2) da := by
  induction da with
  | nil => rfl
  | cons x xs ih =>
      simp only [List.length_cons, List.replicate_succ, List.map_cons,
        List.zipWith_cons_cons, Function.comp_apply, ih, List.cons.injEq]
      exact ⟨by ring, trivial⟩

/-- List-level core of the gradient of b in Q = 3 a ^ 3 - b ^ 2: the
chain-rule accumulation collapses to -(2 x) elementwise. -/
lemma gradB_core (db : List ℚ) :
    List.zipWith (fun x y => x + y) (List.replicate db.length 0)
        (List.zipWith (fun x y => x + y) (List.replicate db.length 0)
          (List.zipWith (fun x y => x * y)
            (List.zipWith (fun x y => x + y)
              (List.map ((fun _ => (0 : ℚ)) ∘ fun x => x ^ 2) db)
              (List.replicate db.length (-1)))
            (List.map (fun x => 2 * x) db))) =
      List.map (fun x => -(2 * x)) db := by
  induction db with
  | nil => rfl
  | cons x xs ih =>
      simp only [List.length_cons, List.replicate_succ, List.map_cons,
        List.zipWith_cons_cons, Function.comp_apply, ih, List.cons.injEq]
      exact ⟨by ring, trivial⟩

/-- List-level core of the gradient of a after two accumulating backward
passes over Q: twice the single-pass gradient. -/
lemma gradA_twice_core (da : List ℚ) :
    List.zipWith (fun x y => x + y)
        (List.zipWith (fun x y => x + y) (List.replicate da.length 0)
          (List.zipWith (fun x y => x + y) (List.replicate da.length 0)
            (List.zipWith (fun x y => x * y)
              (List.zipWith (fun x y => x + y)
                (List.map ((fun _ => (0 : ℚ)) ∘ fun x => x ^ 3) da)
                (List.replicate da.length 3))
              (List.map ((fun x => 3 * x) ∘ fun x => x ^ 2) da))))
        (List.zipWith (fun x y => x + y) (List.replicate da.length 0)
          (List.zipWith (fun x y => x * y)
            (List.zipWith (fun x y => x + y)
              (List.map ((fun _ => (0 : ℚ)) ∘ fun x => x ^ 3) da)
              (List.replicate da.length 3))
            (List.map ((fun x => 3 * x) ∘ fun x => x ^ 2) da))) =
      List.map (fun x => 2 * (9 * x ^ 2)) da := by
  induction da with
  | nil => rfl
  | cons x xs ih =>
      simp only [List.length_cons, List.replicate_succ, List.map_cons,
        List.zipWith_cons_cons, Function.comp_apply, ih, List.cons.injEq]
      exact ⟨by ring, trivial⟩

/-- List-level core of the gradient of b after two accumulating backward
passes over Q: twice the single-pass gradient. -/
lemma gradB_twice_core (db : List ℚ) :
    List.zipWith (fun x y => x + y)
        (List.zipWith (fun x y => x + y) (List.replicate db.length 0)
          (List.zipWith (fun x y => x + y) (List.replicate db.length 0)
            (List.zipWith (fun x y => x * y)
              (List.zipWith (fun x y => x + y)
                (List.map ((fun _ => (0 : ℚ)) ∘ fun x => x ^ 2) db)
                (List.replicate db.length (-1)))
              (List.map (fun x => 2 * x) db))))
        (List.zipWith (fun x y => x + y) (List.replicate db.length 0)
          (List.zipWith (fun x y => x * y)
            (List.zipWith (fun x y => x + y)
              (List.map ((fun _ => (0 : ℚ)) ∘ fun x => x ^ 2) db)
              (List.replicate db.length (-1)))
            (List.map (fun x => 2 * x) db))) =
      List.map (fun x => -(2 * (2 * x))) db := by
  induction db with
  | nil => rfl
  | cons x xs ih =>
      simp only [List.length_cons, List.replicate_succ, List.map_cons,
        List.zipWith_cons_cons, Function.comp_apply, ih, List.cons.injEq]
      exact ⟨by ring, trivial⟩

/-- Claim C1: for every pair of leaf nodes a and b flagged requires-grad
(same shape, elementwise data), building Q = 3 * a ** 3 - b ** 2 and
running backward on Q with an upstream gradient of ones matching Q's
shape accumulates gradient(a) = 9 * a ** 2 and gradient(b) = -2 * b,
exactly (hence within any floating-point tolerance). -/
theorem qGradsOnce_eq (sh : List Nat) (da db : List ℚ)
    (h : da.length = db.length) :
    qGradsOnce ⟨sh, da⟩ ⟨sh, db⟩ =
      .ok (⟨sh, da.map fun x => 9 * x ^ 2⟩, ⟨sh, db.map fun x => -2 * x⟩) := by
  simp [qGradsOnce, buildQ, mkLeaf, applyPow, applyMul, applyAdd,
    backward, runBackward, backwardFrom, backwardStep, initGrads,
    initGradsFrom, applyGrads, nodeAt, payloadAt, gradAt, Payload.add,
    Payload.mul, Payload.pow, Payload.scale, Payload.constLike,
    Payload.zerosLike, Payload.onesLike, scalarOne,
    OperationRecord.localContribs, Except.bind, bind, Except.pure, pure,
    List.getD, List.set]
  refine ⟨?_, ?_⟩
  · rw [← h, Nat.min_self]
    exact gradA_core da
  · rw [h, Nat.min_self]
    exact gradB_core db

/-- Witness for C1 at the notebook's own inputs a = [2, 3], b = [6, 4]:
the accumulated gradients are 9 * a ** 2 = [36, 81] and
-2 * b = [-12, -8]. -/
theorem qGradsOnce_eq_witness :
    qGradsOnce ⟨[2], [2, 3]⟩ ⟨[2], [6, 4]⟩ =
      .ok (⟨[2], [36, 81]⟩, ⟨[2], [-12, -8]⟩) := by
  have h := qGradsOnce_eq [2] [2, 3] [6, 4] rfl
  norm_num at h
  exact h

/-- Claim C3: backward only ever adds to stored gradients: two backward
passes from Q without clearing leave each leaf's gradient at exactly
twice the single-pass value, 2 * (9 * a ** 2) and 2 * (-2 * b). -/
theorem qGradsTwice_eq (sh : List Nat) (da db : List ℚ)
    (h : da.length = db.length) :
    qGradsTwice ⟨sh, da⟩ ⟨sh, db⟩ =
      .ok (⟨sh, da.map fun x => 2 * (9 * x ^ 2)⟩,
        ⟨sh, db.map fun x => 2 * (-2 * x)⟩) := by
  simp [qGradsTwice, buildQ, mkLeaf, applyPow, applyMul, applyAdd,
    backward, runBackward, backwardFrom, backwardStep, initGrads,
    initGradsFrom, applyGrads, nodeAt, payloadAt, gradAt, Payload.add,
    Payload.mul, Payload.pow, Payload.scale, Payload.constLike,
    Payload.zerosLike, Payload.onesLike, scalarOne,
    OperationRecord.localContribs, Except.bind, bind, Except.pure, pure,
    List.getD, List.set]
  refine ⟨?_, ?_⟩
  · rw [← h, Nat.min_self]
    exact gradA_twice_core da
  · rw [h, Nat.min_self]
    exact gradB_twice_core db

/-- Witness for C3 at the notebook's inputs a = [2, 3], b = [6, 4]: after
two backward passes the gradients are doubled, [72, 162] and [-24, -16]. -/
theorem qGradsTwice_eq_witness :
    qGradsTwice ⟨[2], [2, 3]⟩ ⟨[2], [6, 4]⟩ =
      .ok (⟨[2], [72, 162]⟩, ⟨[2], [-24, -16]⟩) := by
  have h := qGradsTwice_eq [2] [2, 3] [6, 4] rfl
  norm_num at h
  exact h

/-- Claim C2: for c = a + a, the one node a used as both operands,
backward on c with upstream gradient 1 accumulates gradient(a) = 2: the
contributions of both paths through the shared node are summed. -/
theorem sharedAddGrad_eq (x : ℚ) : sharedAddGrad x = .ok ⟨[], [2]⟩ := by
  norm_num [sharedAddGrad, mkLeaf, applyAdd, backward, runBackward,
    backwardFrom, backwardStep, initGrads, initGradsFrom, applyGrads,
    nodeAt, payloadAt, gradAt, Payload.add, Payload.mul, Payload.pow,
    Payload.scale, Payload.constLike, Payload.zerosLike, Payload.onesLike,
    scalarOne, OperationRecord.localContribs, Except.bind, bind,
    Except.pure, pure, List.getD, List.set]

/-- Claim C4: backward on a non-scalar root with an upstream gradient of
a different shape fails with ShapeMismatch, synchronously as the call's
result, with no broadcasting or truncation. -/
theorem backward_shape_mismatch (g : Graph) (root : Nat) (up : Payload)
    (hroot : (nodeAt g root).payload.shape ≠ [])
    (hup : up.shape ≠ (nodeAt g root).payload.shape) :
    backward g root (some up) = .error .ShapeMismatch := by
  simp only [backward, Option.getD]
  rw [if_pos hup]

/-- Witness for C4: a single vector leaf of shape [2] as root, given the
scalar upstream gradient 1, is rejected with ShapeMismatch. -/
theorem backward_shape_mismatch_witness :
    (nodeAt (mkLeaf [] ⟨[2], [1, 2]⟩ true).1 0).payload.shape ≠ [] ∧
      scalarOne.shape ≠ (nodeAt (mkLeaf [] ⟨[2], [1, 2]⟩ true).1 0).payload.shape ∧
      backward (mkLeaf [] ⟨[2], [1, 2]⟩ true).1 0 (some scalarOne) =
        .error .ShapeMismatch := by
  refine ⟨by decide, by decide, ?_⟩
  exact backward_shape_mismatch (mkLeaf [] ⟨[2], [1, 2]⟩ true).1 0 scalarOne
    (by decide) (by decide)

/-- Claim C6: on a scalar-shaped root, backward with no upstream-gradient
argument behaves exactly as backward with upstream gradient 1: the
resulting graphs (hence all accumulated gradients) coincide. -/
theorem backward_default_scalar (g : Graph) (root : Nat)
    (h : (nodeAt g root).payload.shape = []) :
    backward g root none = backward g root (some scalarOne) := rfl

/-- Witness for C6: on the scalar graph c = a + b, backward with no
argument equals backward with upstream 1. -/
theorem backward_default_scalar_witness :
    (nodeAt frameGraph 2).payload.shape = [] ∧
      backward frameGraph 2 none = backward frameGraph 2 (some scalarOne) :=
  ⟨by decide, backward_default_scalar frameGraph 2 (by decide)⟩

/-- Claim C9: on a non-scalar (vector-shaped) root, backward with no
upstream-gradient argument is an error: the scalar default 1 cannot match
the root's shape, so the call fails with ShapeMismatch. -/
theorem backward_vector_default_error (g : Graph) (root : Nat)
    (h : (nodeAt g root).payload.shape ≠ []) :
    backward g root none = .error .ShapeMismatch := by
  simp only [backward, Option.getD]
  rw [if_pos (by simpa [scalarOne] using Ne.symm h)]

/-- Witness for C9: backward with no argument on a vector leaf of shape
[2] is rejected with ShapeMismatch. -/
theorem backward_vector_default_error_witness :
    (nodeAt (mkLeaf [] ⟨[2], [1, 2]⟩ true).1 0).payload.shape ≠ [] ∧
      backward (mkLeaf [] ⟨[2], [1, 2]⟩ true).1 0 none =
        .error .ShapeMismatch :=
  ⟨by decide, backward_vector_default_error (mkLeaf [] ⟨[2], [1, 2]⟩ true).1 0
    (by decide)⟩

/-- applyGrads leaves a node not flagged requires-grad entirely
unchanged. -/
lemma applyGrads_not_rg :
    ∀ (g : Graph) (grads : List Payload) (i : Nat),
      (nodeAt g i).requiresGrad = false →
      nodeAt (applyGrads g grads) i = nodeAt g i
  | [], _, _, _ => by simp [applyGrads]
  | n :: g, [], 0, h => by simp [applyGrads, nodeAt, List.getD]
  | n :: g, [], i + 1, h =>
      applyGrads_not_rg g [] i h
  | n :: g, d :: grads, 0, h => by
      have hn : n.requiresGrad = false := by
        simpa [nodeAt, List.getD] using h
      simp [applyGrads, nodeAt, List.getD, hn]
  | n :: g, d :: grads, i + 1, h =>
      applyGrads_not_rg g grads i h

/-- Claim C8: a successful backward pass accumulates nothing into a node
not flagged requires-grad: such a node, even one participating in the
graph, is left entirely unchanged (in particular its gradient
accumulator is). -/
theorem backward_no_rg_unchanged (g : Graph) (root : Nat)
    (up? : Option Payload) (g' : Graph)
    (hok : backward g root up? = .ok g') (i : Nat)
    (h : (nodeAt g i).requiresGrad = false) :
    nodeAt g' i = nodeAt g i := by
  simp only [backward] at hok
  split at hok
  · exact absurd hok (by simp)
  · split at hok
    · exact absurd hok (by simp)
    · rw [Except.ok.injEq] at hok
      rw [← hok]
      exact applyGrads_not_rg g _ i h

/-- Claim C5: the elementary-operation derivative table matches standard
calculus at every operand value: on scalar leaves holding x and c, each
local contribution under upstream u is u times the Mathlib derivative of
the corresponding forward operation — 1 per operand of an addition, the
other operand's value for a multiplication, and n * x ^ (n - 1) for the
integer power x ^ n. -/
theorem derivative_table_matches_calculus (x c u : ℚ) (n : ℕ) :
    (OperationRecord.add 0 1).localContribs (twoScalarLeaves x c) ⟨[], [u]⟩ =
        [(0, ⟨[], [u * deriv (fun y : ℚ => y + c) x]⟩),
         (1, ⟨[], [u * deriv (fun y : ℚ => x + y) c]⟩)] ∧
      (OperationRecord.mul 0 1).localContribs (twoScalarLeaves x c) ⟨[], [u]⟩ =
        [(0, ⟨[], [u * deriv (fun y : ℚ => y * c) x]⟩),
         (1, ⟨[], [u * deriv (fun y : ℚ => x * y) c]⟩)] ∧
      (OperationRecord.pow n 0).localContribs (twoScalarLeaves x c) ⟨[], [u]⟩ =
        [(0, ⟨[], [u * deriv (fun y : ℚ => y ^ n) x]⟩)] := by
  have hadd2 : deriv (fun y : ℚ => x + y) c = 1 := by
    rw [deriv_const_add]
    exact deriv_id c
  have hmul2 : deriv (fun y : ℚ => x * y) c = x := by
    rw [deriv_const_mul_field, deriv_id'']
    ring
  refine ⟨?_, ?_, ?_⟩
  · simp [OperationRecord.localContribs, hadd2]
  · have hmul1 : deriv (fun y : ℚ => y * c) x = c := by simp
    have hmul1' : deriv (fun y : ℚ => c * y) x = c := by
      rw [deriv_const_mul_field, deriv_id'']
      ring
    simp [OperationRecord.localContribs, twoScalarLeaves, mkLeaf, nodeAt,
      payloadAt, Payload.mul, List.getD, hmul1, hmul1', hmul2, mul_comm]
  · simp [OperationRecord.localContribs, twoScalarLeaves, mkLeaf, nodeAt,
      payloadAt, Payload.mul, Payload.scale, Payload.pow, List.getD,
      deriv_pow, mul_comm, mul_assoc, mul_left_comm]

/-- Extending the arena never changes an existing node. -/
lemma nodeAt_append_lt (g : Graph) (x : ValueNode) (m : Nat)
    (h : m < g.length) : nodeAt (g ++ [x]) m = nodeAt g m :=
  List.getD_append g [x] defaultNode m h

/-- The appended node sits at the old length. -/
lemma nodeAt_append_len (g : Graph) (x : ValueNode) :
    nodeAt (g ++ [x]) g.length = x := by
  have h := List.getD_append_right g [x] defaultNode g.length le_rfl
  rw [Nat.sub_self] at h
  exact h

/-- Appending one node whose references stay below the old length keeps
the graph well formed and every old node unchanged. -/
lemma append_preserves (g : Graph) (x : ValueNode) (hwf : WellFormed g)
    (hx : nodeRefsBelow x g.length = true) :
    (g ++ [x]).length = g.length + 1 ∧
      (∀ m, m < g.length → nodeAt (g ++ [x]) m = nodeAt g m) ∧
      WellFormed (g ++ [x]) := by
  refine ⟨by simp, fun m hm => nodeAt_append_lt g x m hm, ?_⟩
  intro m hm
  rcases Nat.lt_succ_iff_lt_or_eq.mp (by simpa using hm) with hlt | heq
  · rw [nodeAt_append_lt g x m hlt]
    exact hwf m hlt
  · subst heq
    rw [nodeAt_append_len g x]
    exact hx

/-- Claim C7: every arithmetic operation on value nodes is purely
functional and order-respecting: leaf creation and each of add, mul, pow
only append one node (every existing node, in particular each operand, is
unchanged), the new node's index is the old length, and well-formedness —
each node's producing record references strictly earlier nodes only, so
the graph is a DAG whose creation order is a topological order — is
preserved.  (Each node carries at most one producing record by
construction of its optional producer field.) -/
theorem builder_pure_dag (g : Graph) (p : Payload) (rg : Bool)
    (i j n : Nat) (hwf : WellFormed g) (hi : i < g.length)
    (hj : j < g.length) :
    ((mkLeaf g p rg).2 = g.length ∧
      (mkLeaf g p rg).1.length = g.length + 1 ∧
      (∀ m, m < g.length → nodeAt (mkLeaf g p rg).1 m = nodeAt g m) ∧
      WellFormed (mkLeaf g p rg).1) ∧
    (∀ g' k, applyAdd g i j = .ok (g', k) →
      k = g.length ∧ g'.length = g.length + 1 ∧
      (∀ m, m < g.length → nodeAt g' m = nodeAt g m) ∧ WellFormed g') ∧
    (∀ g' k, applyMul g i j = .ok (g', k) →
      k = g.length ∧ g'.length = g.length + 1 ∧
      (∀ m, m < g.length → nodeAt g' m = nodeAt g m) ∧ WellFormed g') ∧
    (∀ g' k, applyPow g n i = .ok (g', k) →
      k = g.length ∧ g'.length = g.length + 1 ∧
      (∀ m, m < g.length → nodeAt g' m = nodeAt g m) ∧ WellFormed g') := by
  refine ⟨?_, ?_, ?_, ?_⟩
  · have h := append_preserves g ⟨p, rg, p.zerosLike, none⟩ hwf
      (by simp [nodeRefsBelow])
    exact ⟨rfl, h.1, h.2.1, h.2.2⟩
  · intro g' k hok
    simp only [applyAdd] at hok
    split at hok
    · rw [Except.ok.injEq, Prod.mk.injEq] at hok
      obtain ⟨hg, hk⟩ := hok
      have h := append_preserves g
        ⟨(nodeAt g i).payload.add (nodeAt g j).payload,
         (nodeAt g i).requiresGrad || (nodeAt g j).requiresGrad,
         ((nodeAt g i).payload.add (nodeAt g j).payload).zerosLike,
         some (.add i j)⟩ hwf
        (by simp [nodeRefsBelow, OperationRecord.inputs, hi, hj])
      exact ⟨hk.symm, hg ▸ h.1, fun m hm => hg ▸ h.2.1 m hm, hg ▸ h.2.2⟩
    · exact absurd hok (by simp)
  · intro g' k hok
    simp only [applyMul] at hok
    split at hok
    · rw [Except.ok.injEq, Prod.mk.injEq] at hok
      obtain ⟨hg, hk⟩ := hok
      have h := append_preserves g
        ⟨(nodeAt g i).payload.mul (nodeAt g j).payload,
         (nodeAt g i).requiresGrad || (nodeAt g j).requiresGrad,
         ((nodeAt g i).payload.mul (nodeAt g j).payload).zerosLike,
         some (.mul i j)⟩ hwf
        (by simp [nodeRefsBelow, OperationRecord.inputs, hi, hj])
      exact ⟨hk.symm, hg ▸ h.1, fun m hm => hg ▸ h.2.1 m hm, hg ▸ h.2.2⟩
    · exact absurd hok (by simp)
  · intro g' k hok
    simp only [applyPow] at hok
    rw [Except.ok.injEq, Prod.mk.injEq] at hok
    obtain ⟨hg, hk⟩ := hok
    have h := append_preserves g
      ⟨(nodeAt g i).payload.pow n, (nodeAt g i).requiresGrad,
       ((nodeAt g i).payload.pow n).zerosLike, some (.pow n i)⟩ hwf
      (by simp [nodeRefsBelow, OperationRecord.inputs, hi])
    exact ⟨hk.symm, hg ▸ h.1, fun m hm => hg ▸ h.2.1 m hm, hg ▸ h.2.2⟩

/-- Witness for C7: adding the two scalar leaves 1 and 2 appends the node
1 + 2 = 3 at index 2, keeps the graph well formed and leaves operand 0
unchanged. -/
theorem builder_pure_dag_witness :
    WellFormed (twoScalarLeaves 1 2) ∧
      applyAdd (twoScalarLeaves 1 2) 0 1 = .ok (sumGraph, 2) ∧
      WellFormed sumGraph ∧
      nodeAt sumGraph 0 = nodeAt (twoScalarLeaves 1 2) 0 := by
  have hok : applyAdd (twoScalarLeaves 1 2) 0 1 = .ok (sumGraph, 2) := by
    norm_num [applyAdd, twoScalarLeaves, mkLeaf, nodeAt, Payload.add,
      Payload.zerosLike, List.getD, sumGraph]
  have h := (builder_pure_dag (twoScalarLeaves 1 2) ⟨[], [0]⟩ false 0 1 3
    (by decide) (by decide) (by decide)).2.1 sumGraph 2 hok
  exact ⟨by decide, hok, h.2.2.2, h.2.2.1 0 (by decide)⟩

/-- Witness for C8: backward on the graph c = a + b succeeds and leaves
the non-requires-grad leaf b exactly as it was. -/
theorem backward_no_rg_unchanged_witness :
    backward frameGraph 2 (some scalarOne) = .ok frameGraphAfter ∧
      (nodeAt frameGraph 1).requiresGrad = false ∧
      nodeAt frameGraphAfter 1 = nodeAt frameGraph 1 := by
  have hok : backward frameGraph 2 (some scalarOne) = .ok frameGraphAfter := by
    norm_num [frameGraph, frameGraphAfter, backward, runBackward,
      backwardFrom, backwardStep, initGrads, initGradsFrom, applyGrads,
      nodeAt, payloadAt, gradAt, Payload.add, Payload.zerosLike, scalarOne,
      OperationRecord.localContribs, List.getD, List.set]
  exact ⟨hok, rfl,
    backward_no_rg_unchanged frameGraph 2 (some scalarOne) frameGraphAfter
      hok 1 rfl⟩

end Autodiff

namespace ConvNet

/-- Claim C10: for every batch size N, ConvNet.forward on an input of
shape (N, 1, 32, 32) is shape-consistent end to end and returns shape
(N, 10): conv1 gives (N, 6, 28, 28), pooling gives (N, 6, 14, 14),
conv2 gives (N, 16, 10, 10), pooling gives (N, 16, 5, 5), whose
flattened feature count 16 * 5 * 5 = 400 matches fc1 exactly. -/
theorem convNet_forward_shape (N : Nat) :
    conv2dShape 1 6 5 ⟨N, 1, 32, 32⟩ = some ⟨N, 6, 28, 28⟩ ∧
      maxPool2dShape 2 ⟨N, 6, 28, 28⟩ = some ⟨N, 6, 14, 14⟩ ∧
      conv2dShape 6 16 5 ⟨N, 6, 14, 14⟩ = some ⟨N, 16, 10, 10⟩ ∧
      maxPool2dShape 2 ⟨N, 16, 10, 10⟩ = some ⟨N, 16, 5, 5⟩ ∧
      flattenShape ⟨N, 16, 5, 5⟩ = (N, 16 * 5 * 5) ∧
      forwardShape ⟨N, 1, 32, 32⟩ = some (N, 10) := by
  refine ⟨?_, ?_, ?_, ?_, ?_, ?_⟩ <;>
    norm_num [conv2dShape, maxPool2dShape, flattenShape, linearShape,
      forwardShape, Option.bind, bind]

end ConvNet
